import Mathlib

/-!
Verification of the eml-viewer core against its natural-language specification.

The development shallowly embeds the Go source of the repository:
* the path resolver `ResolveEmailPath` (internal/db, lines cited as
  web/static/js/app.js 152-189 in the claim sources) together with the
  Unix builds of `filepath.Clean`, `filepath.Join`, `filepath.IsAbs`,
  `strings.Contains` and `strings.HasPrefix` that it calls;
* the conversation engine of internal/db/conversations.go
  (`findConversationRoot`, `BuildConversationTree`,
  `buildConversationTreeRecursive`, `GetDirectReplies`,
  `GetEmailsByMessageID`, `CountReplies`);
* the indexing pipeline of internal/indexer
  (`parseWorker`, `batchWriter`, `writeBatch`, `indexAllConcurrent`) and
  the store operations of internal/db/emails.go
  (`InsertEmailsBatch`, `InsertAttachmentsBatch`, `EmailsExistBatch`,
  `checkExistenceChunk`, `EmailExists`).

Stateful Go code is modelled by explicit state passing over a `Store`
value; the SQLite store is modelled as lists of rows; goroutine pipelines
are serialised (each worker result is collected deterministically), which
preserves the counting and persistence facts the claims are about.
Possibly non-terminating loops receive an explicit fuel argument whose
exhaustion is reported as `none`, so that `forall fuel, result = none`
expresses divergence of the source loop.
-/

/-! ## Go standard-library model: paths and strings (Unix build) -/

/-- Model of Go `strings.HasPrefix s pre` (argument order as in Go). The
character-list implementation keeps every path computation reducible by the
kernel. -/
def strHasPrefix (s pre : String) : Bool :=
  pre.data.isPrefixOf s.data

/-- Model of Go `strings.Contains s pat`: `pat` occurs as a contiguous
substring of `s`. -/
def strContains (s pat : String) : Bool :=
  (List.range (s.length + 1)).any (fun i => pat.data.isPrefixOf (s.data.drop i))

/-- Split a character list at every slash; the accumulator holds the pending
segment in reverse. -/
def splitSlashAux : List Char → List Char → List String
  | [], acc => [String.mk acc.reverse]
  | c :: rest, acc =>
    if c = '/' then String.mk acc.reverse :: splitSlashAux rest []
    else splitSlashAux rest (c :: acc)

/-- Split a path string on the slash separator (as `strings.Split(p, "/")`),
keeping empty segments. -/
def splitSlash (s : String) : List String :=
  splitSlashAux s.data []

/-- Join segments with the slash separator (as `strings.Join(segs, "/")`). -/
def joinSlash : List String → String
  | [] => ""
  | [s] => s
  | s :: rest => s ++ "/" ++ joinSlash rest

/-- Truncation of a string to its first `n` characters (the pipeline slices
the body preview; byte and rune counts agree on the data the claims use). -/
def strTake (s : String) (n : Nat) : String :=
  String.mk (s.data.take n)

/-- Model of Go `filepath.IsAbs` on Unix: the path starts with a slash. -/
def goIsAbs (p : String) : Bool :=
  strHasPrefix p "/"

/-- Segment stack of Go `filepath.Clean` (Unix). Processes the slash-split
segments left to right: empty and `.` segments are dropped; `..` pops a
pushed segment, is dropped at the root of a rooted path, and is kept at the
front of a relative path (matching the `dotdot` boundary of the Go
implementation). The accumulator holds the output segments in reverse. -/
def cleanSegsLoop (rooted : Bool) : List String → List String → List String
  | acc, [] => acc.reverse
  | acc, seg :: rest =>
    if seg = "" || seg = "." then cleanSegsLoop rooted acc rest
    else if seg = ".." then
      match acc with
      | [] =>
        if rooted then cleanSegsLoop rooted [] rest
        else cleanSegsLoop rooted [".."] rest
      | top :: acc2 =>
        if top = ".." then cleanSegsLoop rooted (".." :: top :: acc2) rest
        else cleanSegsLoop rooted acc2 rest
    else cleanSegsLoop rooted (seg :: acc) rest

/-- Model of Go `filepath.Clean` (Unix): shortest lexical equivalent of the
path, with `.`/`..` segments collapsed; returns `.` for an empty result. -/
def filepathClean (p : String) : String :=
  if p = "" then "."
  else
    let rooted := goIsAbs p
    let segs := cleanSegsLoop rooted [] (splitSlash p)
    if rooted then "/" ++ joinSlash segs
    else if segs = [] then "." else joinSlash segs

/-- Model of Go `filepath.Join a b` (Unix): non-empty elements joined with a
slash, then cleaned. -/
def filepathJoin (a b : String) : String :=
  if a = "" && b = "" then ""
  else if a = "" then filepathClean b
  else if b = "" then filepathClean a
  else filepathClean (a ++ "/" ++ b)

/-- Model of Go `filepath.Abs` for the paths this repository feeds it: the
configured emails root and the joined result are absolute, and on an
absolute path `filepath.Abs` returns `filepath.Clean` of it. -/
def goAbs (p : String) : String :=
  filepathClean p

/-! ## Path resolver: `ResolveEmailPath` -/

/-- The single typed rejection of the resolver, modelling `ErrPathTraversal`. -/
inductive PathError where
  | pathTraversal
deriving DecidableEq, Repr

/-- Embedding of `(db *DB) ResolveEmailPath(relativePath)`: reject absolute
paths; clean; reject if the cleaned path still contains the substring `..`;
join with the canonicalized emails root; canonicalize; reject unless the
result is the root itself or has the separator-terminated root as prefix. -/
def ResolveEmailPath (emailsPath relativePath : String) : Except PathError String :=
  if goIsAbs relativePath then .error .pathTraversal
  else
    let cleaned := filepathClean relativePath
    if strContains cleaned ".." then .error .pathTraversal
    else
      let absEmailsPath := goAbs emailsPath
      let resolved := filepathJoin absEmailsPath cleaned
      let absResolved := goAbs resolved
      if !strHasPrefix absResolved (absEmailsPath ++ "/") && !(absResolved == absEmailsPath)
      then .error .pathTraversal
      else .ok absResolved

/-- Equality of resolver outcomes is decidable, so the concrete resolver
properties can be settled by evaluation. -/
instance : DecidableEq (Except PathError String) := fun x y =>
  match x, y with
  | .error a, .error b =>
    if h : a = b then .isTrue (by rw [h]) else .isFalse (fun hc => h (by injection hc))
  | .ok a, .ok b =>
    if h : a = b then .isTrue (by rw [h]) else .isFalse (fun hc => h (by injection hc))
  | .error a, .ok b => .isFalse (fun hc => Except.noConfusion hc)
  | .ok a, .error b => .isFalse (fun hc => Except.noConfusion hc)

/-- Embedding of the path computation of `parseWorker` (indexer.go line 211):
`absolutePath := filepath.Join(idx.scanner.GetRootPath(), filePath)` — the
pipeline joins the scanner root with the stored relative path directly and
does not call `ResolveEmailPath`. -/
def parseWorkerAbsolutePath (rootPath filePath : String) : String :=
  filepathJoin rootPath filePath

/-! ## Conversation engine: internal/db/conversations.go -/

/-- The columns of an `emails` row that the conversation engine and the
pipeline claims read. `date` carries the `ORDER BY date ASC` key of
`GetDirectReplies`; the remaining persisted columns (subject, sender, ...)
are never inspected by the embedded functions and are omitted. -/
structure Email where
  filePath : String := ""
  messageId : String := ""
  inReplyTo : String := ""
  date : Nat := 0
  bodyTextPreview : String := ""
deriving DecidableEq, Repr, Inhabited

/-- Embedding of `GetEmailsByMessageID`: `nil` for the empty identifier,
otherwise the first row whose `message_id` matches (`LIMIT 1`); `none` also
stands for the no-rows error, which every caller treats like `nil`. -/
def GetEmailsByMessageID (db : List Email) (messageID : String) : Option Email :=
  if messageID = "" then none
  else db.find? (fun e => e.messageId = messageID)

/-- Stable insertion of a row into a list ascending by `date`, modelling the
ordering of a `ORDER BY date ASC` result set. -/
def insertByDate (e : Email) : List Email → List Email
  | [] => [e]
  | x :: xs => if x.date ≤ e.date then x :: insertByDate e xs else e :: x :: xs

/-- Sort rows ascending by `date`. -/
def sortByDate : List Email → List Email
  | [] => []
  | e :: es => insertByDate e (sortByDate es)

/-- Embedding of `GetDirectReplies`: all rows with `in_reply_to = messageID`,
ordered by date ascending; the empty list for the empty identifier. -/
def GetDirectReplies (db : List Email) (messageID : String) : List Email :=
  if messageID = "" then []
  else sortByDate (db.filter (fun e => e.inReplyTo = messageID))

/-- Embedding of `findConversationRoot` (conversations.go lines 222-236).
The source is an unguarded loop `for current.InReplyTo != ""` that follows
`in_reply_to` upward with no visited set and no hop bound; the `fuel`
argument makes the loop total in Lean: `none` means the loop has not
returned within `fuel` iterations, so `forall fuel, ... = none` states that
the source loop diverges. -/
def findConversationRoot (db : List Email) : Nat → Email → Option Email
  | 0, _ => none
  | fuel + 1, current =>
    if current.inReplyTo = "" then some current
    else
      match GetEmailsByMessageID db current.inReplyTo with
      | none => some current
      | some parent => findConversationRoot db fuel parent

/-- The `ConversationEmail` node of the built tree. -/
structure ConversationEmail where
  email : Email
  children : List ConversationEmail
  replyCount : Nat
  isRootEmail : Bool
  threadDepth : Nat

instance : Inhabited ConversationEmail :=
  ⟨⟨default, [], 0, false, 0⟩⟩

/-- The reply loop of `buildConversationTreeRecursive`: for each reply a
fresh child node at depth `depth` is built, the recursion (`step`, the
recursive call at one unit less fuel) fills it in, the child is appended to
the parent and the parent accumulates `ReplyCount += 1 + child.ReplyCount`;
the visited set threads through the children left to right. -/
def buildLoop (step : Email → Nat → List String → ConversationEmail × List String) :
    List Email → ConversationEmail → Nat → List String → ConversationEmail × List String
  | [], parent, _, visited => (parent, visited)
  | reply :: rest, parent, depth, visited =>
    let r := step reply depth visited
    buildLoop step rest
      ⟨parent.email, parent.children ++ [r.1],
        parent.replyCount + 1 + r.1.replyCount, parent.isRootEmail, parent.threadDepth⟩
      depth r.2

/-- Embedding of `buildConversationTreeRecursive` (conversations.go lines
150-197): return unchanged when the message id is empty, already visited,
or `depth > maxDepth`; otherwise mark visited and expand the direct
replies. Recursion depth is bounded by `maxDepth`, so the structural `fuel`
argument never runs out for `fuel > maxDepth + 1 - depth`. -/
def buildConversationTreeRecursive (db : List Email) (maxDepth : Nat) :
    Nat → ConversationEmail → Nat → List String → ConversationEmail × List String
  | 0, parent, _, visited => (parent, visited)
  | fuel + 1, parent, depth, visited =>
    if parent.email.messageId = "" then (parent, visited)
    else if visited.contains parent.email.messageId then (parent, visited)
    else if decide (depth > maxDepth) then (parent, visited)
    else
      buildLoop
        (fun reply d vis =>
          buildConversationTreeRecursive db maxDepth fuel ⟨reply, [], 0, false, d⟩ (d + 1) vis)
        (GetDirectReplies db parent.email.messageId)
        parent depth (visited ++ [parent.email.messageId])

/-- Embedding of `BuildConversationTree` (conversations.go lines 130-147):
fresh root node (depth 0, empty children, reply count 0), empty visited set,
`maxDepth := 50`; the fuel 51 covers the deepest possible recursion, which
the `depth > maxDepth` guard cuts at nesting level 51. -/
def BuildConversationTree (db : List Email) (rootEmail : Email) : ConversationEmail :=
  (buildConversationTreeRecursive db 50 51 ⟨rootEmail, [], 0, true, 0⟩ 1 []).1

/-- Number of generations step of the recursive CTE of `CountReplies`:
`UNION ALL` breadth-first expansion with multiplicity; the fuel bounds the
number of generations (on acyclic data at most one per stored row, on
cyclic data the source query does not terminate). -/
def countRepliesGen (db : List Email) : Nat → List Email → Nat
  | 0, _ => 0
  | _, [] => 0
  | fuel + 1, gen =>
    gen.length +
      countRepliesGen db fuel
        ((gen.map (fun r => db.filter (fun e => e.inReplyTo = r.messageId))).flatten)

/-- Embedding of `CountReplies` (conversations.go lines 273-301): count of
all rows produced by the recursive `replies` CTE seeded with the direct
replies of `messageID`. -/
def CountReplies (db : List Email) (messageID : String) : Nat :=
  if messageID = "" then 0
  else countRepliesGen db (db.length + 1) (db.filter (fun e => e.inReplyTo = messageID))

/-- Number of positions of the built tree holding a record with the given
message identifier. -/
def countOcc (msgId : String) : ConversationEmail → Nat
  | ⟨e, children, _, _, _⟩ =>
    (if e.messageId = msgId then 1 else 0) + countOccList msgId children
where countOccList (msgId : String) : List ConversationEmail → Nat
  | [] => 0
  | c :: cs => countOcc msgId c + countOccList msgId cs

/-! ## Durable store and indexing pipeline: internal/db/emails.go, indexer.go -/

/-- An `attachments` row (metadata only; `id` is never read back). -/
structure Attachment where
  emailId : Nat
  filename : String
  contentType : String
  size : Nat
deriving DecidableEq, Repr

/-- A parsed attachment descriptor as produced by the content parser. -/
structure ParsedAttachment where
  filename : String
  contentType : String
  size : Nat
deriving DecidableEq, Repr

/-- The transactional store. `emails`/`attachments` are the persisted rows
(the generated id of an email row is its position); the two `Fails` flags
model whether the corresponding insert transaction aborts, letting theorems
quantify over store failures. -/
structure Store where
  emails : List Email := []
  attachments : List Attachment := []
  emailInsertFails : Bool := false
  attachmentInsertFails : Bool := false
deriving DecidableEq, Repr

/-- Embedding of `InsertEmailsBatch` (emails.go lines 290-337): one
transaction inserting every row and returning the generated ids in input
order; on failure the transaction rolls back and nothing is persisted. -/
def InsertEmailsBatch (s : Store) (emails : List Email) : Except String (Store × List Nat) :=
  if emails = [] then .ok (s, [])
  else if s.emailInsertFails then .error "failed to commit transaction"
  else .ok ({ s with emails := s.emails ++ emails },
            (List.range emails.length).map (fun i => s.emails.length + i))

/-- Embedding of `InsertAttachmentsBatch` (emails.go lines 339-371): one
transaction inserting every attachment row; on failure nothing is
persisted. -/
def InsertAttachmentsBatch (s : Store) (atts : List Attachment) : Except String Store :=
  if atts = [] then .ok s
  else if s.attachmentInsertFails then .error "failed to commit transaction"
  else .ok { s with attachments := s.attachments ++ atts }

/-- Embedding of `EmailExists`: whether a row with the given `file_path` is
persisted. -/
def EmailExists (s : Store) (filePath : String) : Bool :=
  (s.emails.map (fun e => e.filePath)).contains filePath

/-- Embedding of `checkExistenceChunk` (emails.go lines 400-432): every path
of the chunk is entered into the result map, `false` unless the `IN` query
returns it. -/
def checkExistenceChunk (s : Store) (chunk : List String) : List (String × Bool) :=
  chunk.map (fun fp => (fp, EmailExists s fp))

/-- Embedding of `EmailsExistBatch` (emails.go lines 375-398): the candidate
paths are processed in chunks of 500 to respect the SQLite variable limit;
the result is the union of the per-chunk maps. -/
def EmailsExistBatch (s : Store) (filePaths : List String) : List (String × Bool) :=
  if h : filePaths = [] then []
  else checkExistenceChunk s (filePaths.take 500) ++ EmailsExistBatch s (filePaths.drop 500)
termination_by filePaths.length
decreasing_by
  simp only [List.length_drop]
  have hpos : 0 < filePaths.length := List.length_pos.mpr h
  omega

/-- Go map lookup (default `false`) on the association list produced by
`EmailsExistBatch`. -/
def lookupBool (m : List (String × Bool)) (k : String) : Bool :=
  ((m.find? (fun kv => kv.1 = k)).map (fun kv => kv.2)).getD false

/-- The `parsedEmail` unit handed from a parse worker to the batch writer. -/
structure ParsedEmailUnit where
  email : Email
  attachments : List ParsedAttachment
  filePath : String
deriving DecidableEq, Repr

/-- The `batchWriteResult` of one flush. -/
structure BatchWriteResult where
  indexed : Nat
  failed : Nat
  failedFiles : List String
deriving DecidableEq, Repr

/-- Embedding of `writeBatch` (indexer.go lines 314-372): batch-insert the
emails in one transaction (on failure every file of the batch is reported
failed and nothing is persisted); then batch-insert all attachments in a
second transaction whose failure is only logged — it neither fails the
batch nor unwinds the email insert. -/
def writeBatch (s : Store) (batch : List ParsedEmailUnit) : Store × BatchWriteResult :=
  if batch = [] then (s, ⟨0, 0, []⟩)
  else
    let emails := batch.map (fun p => p.email)
    match InsertEmailsBatch s emails with
    | .error _ => (s, ⟨0, batch.length, batch.map (fun p => p.filePath)⟩)
    | .ok (s1, emailIDs) =>
      let indexed := emailIDs.length
      let allAttachments :=
        ((batch.zip emailIDs).map (fun pe =>
          pe.1.attachments.map (fun att =>
            (⟨pe.2, att.filename, att.contentType, att.size⟩ : Attachment)))).flatten
      let s2 :=
        if allAttachments = [] then s1
        else
          match InsertAttachmentsBatch s1 allAttachments with
          | .error _ => s1
          | .ok s2 => s2
      (s2, ⟨indexed, 0, []⟩)

/-- The structured content of one parsed file, as far as the pipeline reads
it (`parser.ParseEMLFile` output). -/
structure ParsedEML where
  messageId : String := ""
  inReplyTo : String := ""
  date : Nat := 0
  bodyText : String := ""
  attachments : List ParsedAttachment := []
deriving DecidableEq, Repr

/-- Embedding of the per-file body of `parseWorker` (indexer.go lines
206-268): join the root with the relative path, parse, stat, truncate the
body text to 10KB, and emit the record; `none` models the `statusFailed`
result sent when parsing or statting fails (failure is local to the file). -/
def parseWorker (rootPath : String) (parse : String → Option ParsedEML)
    (stat : String → Option Nat) (filePath : String) : Option ParsedEmailUnit :=
  let absolutePath := parseWorkerAbsolutePath rootPath filePath
  match parse absolutePath with
  | none => none
  | some parsed =>
    match stat absolutePath with
    | none => none
    | some _ =>
      let bodyTextPreview :=
        if parsed.bodyText.length > 10240 then strTake parsed.bodyText 10240 else parsed.bodyText
      some ⟨{ filePath := filePath, messageId := parsed.messageId,
              inReplyTo := parsed.inReplyTo, date := parsed.date,
              bodyTextPreview := bodyTextPreview },
            parsed.attachments, filePath⟩

/-- Embedding of the `batchWriter` loop (indexer.go lines 271-311),
serialised: the queued units are flushed in batches of `batchSize = 50` (the
size trigger); on shutdown the remaining partial batch is flushed. The time
trigger only makes flushes more frequent and does not change which units
are flushed. -/
def batchWriter (s : Store) (queue : List ParsedEmailUnit) : Store × List BatchWriteResult :=
  if h : queue = [] then (s, [])
  else
    let flush := writeBatch s (queue.take 50)
    let rest := batchWriter flush.1 (queue.drop 50)
    (rest.1, flush.2 :: rest.2)
termination_by queue.length
decreasing_by
  simp only [List.length_drop]
  have hpos : 0 < queue.length := List.length_pos.mpr h
  omega

/-- The `IndexResult` returned to the caller. -/
structure IndexResult where
  totalFound : Nat
  newIndexed : Nat
  skipped : Nat
  failed : Nat
  failedFiles : List String
deriving DecidableEq, Repr

/-- The pre-filter loop of `indexAllConcurrent` (indexer.go lines 100-108):
paths the existence map reports `true` increment `Skipped`; the rest are
appended to `filesToProcess`. -/
def prefilter (existing : List (String × Bool)) (files : List String) : Nat × List String :=
  files.foldl
    (fun acc file =>
      if lookupBool existing file then (acc.1 + 1, acc.2) else (acc.1, acc.2 ++ [file]))
    (0, [])

/-- Embedding of `indexAllConcurrent` (indexer.go lines 78-190), serialised:
`files` is the scanner output; the existence pre-filter splits it into
skipped paths and `filesToProcess` (an empty remainder returns before any
worker or store write); each remaining file goes through `parseWorker`;
failures are collected from the result channel and successful units flow
through the batch writer, whose per-flush counts are aggregated into the
final `IndexResult`. -/
def indexAllConcurrent (s : Store) (rootPath : String) (parse : String → Option ParsedEML)
    (stat : String → Option Nat) (files : List String) : Store × IndexResult :=
  let totalFound := files.length
  let existingFiles := EmailsExistBatch s files
  let pf := prefilter existingFiles files
  if pf.2 = [] then (s, ⟨totalFound, 0, pf.1, 0, []⟩)
  else
    let outcomes := pf.2.map (fun f => (f, parseWorker rootPath parse stat f))
    let failedList := (outcomes.filter (fun o => o.2 = none)).map (fun o => o.1)
    let queue := outcomes.filterMap (fun o => o.2)
    let bw := batchWriter s queue
    (bw.1, ⟨totalFound,
            (bw.2.map (fun r => r.indexed)).sum,
            pf.1,
            failedList.length + (bw.2.map (fun r => r.failed)).sum,
            failedList ++ (bw.2.map (fun r => r.failedFiles)).flatten⟩)

/-! ## Concrete stores and records used by the testable properties -/

/-- First record of the mutual-reference pair of `TestCircularReferenceDetection`. -/
def email1 : Email :=
  { filePath := "email1.eml", messageId := "<msg1@example.com>", inReplyTo := "<msg2@example.com>" }

/-- Second record of the mutual-reference pair: points back at the first. -/
def email2 : Email :=
  { filePath := "email2.eml", messageId := "<msg2@example.com>", inReplyTo := "<msg1@example.com>" }

/-- A store holding exactly the two mutually referencing records. -/
def cycleDb : List Email := [email1, email2]

/-- Record `i` of the 150-element chain of `TestMaxHopsProtection`: each
record back-references the previous one; record 0 has no back-reference. -/
def chainEmail (i : Nat) : Email :=
  { filePath := "email" ++ toString i ++ ".eml",
    messageId := "<msg" ++ toString i ++ "@example.com>",
    inReplyTo := if i = 0 then "" else "<msg" ++ toString (i - 1) ++ "@example.com>",
    date := i }

/-- The 150-record chain store. -/
def chainDb : List Email := (List.range 150).map chainEmail

/-- Root record of the three-email thread of the tree-shape property. -/
def tEmail1 : Email := { filePath := "e1.eml", messageId := "<m1@x>", inReplyTo := "", date := 1 }

/-- Reply to `tEmail1`. -/
def tEmail2 : Email := { filePath := "e2.eml", messageId := "<m2@x>", inReplyTo := "<m1@x>", date := 2 }

/-- Reply to `tEmail2`. -/
def tEmail3 : Email := { filePath := "e3.eml", messageId := "<m3@x>", inReplyTo := "<m2@x>", date := 3 }

/-- The three-email thread store. -/
def treeDb : List Email := [tEmail1, tEmail2, tEmail3]

/-- A store with a single record and no replies. -/
def soloDb : List Email := [tEmail1]

/-- A store whose email transaction succeeds but whose attachment
transaction fails. -/
def attFailStore : Store := { attachmentInsertFails := true }

/-- One parsed unit carrying one attachment. -/
def oneAttUnit : ParsedEmailUnit :=
  ⟨{ filePath := "a.eml", messageId := "<a@x>" },
   [⟨"f.pdf", "application/pdf", 10⟩], "a.eml"⟩

/-! ## Invariants of the built conversation tree -/

/-- Well-formedness of a built tree node as the source computes it: the
reply count is the sum over the children of `1 + child.replyCount`, every
child sits one level below its parent, and the children are well-formed. -/
inductive GoodNode : ConversationEmail → Prop where
  | mk : ∀ n : ConversationEmail,
      n.replyCount = (n.children.map (fun c => 1 + c.replyCount)).sum →
      (∀ c ∈ n.children, c.threadDepth = n.threadDepth + 1) →
      (∀ c ∈ n.children, GoodNode c) →
      GoodNode n

/-! ## Lemmas about the built conversation tree -/

/-- The reply loop changes only the children and reply count of the parent
node. -/
lemma buildLoop_shape (step : Email → Nat → List String → ConversationEmail × List String) :
    ∀ (replies : List Email) (parent : ConversationEmail) (depth : Nat) (visited : List String),
      (buildLoop step replies parent depth visited).1.email = parent.email ∧
      (buildLoop step replies parent depth visited).1.isRootEmail = parent.isRootEmail ∧
      (buildLoop step replies parent depth visited).1.threadDepth = parent.threadDepth := by
  intro replies
  induction replies with
  | nil => intro parent depth visited; exact ⟨rfl, rfl, rfl⟩
  | cons reply rest ih =>
    intro parent depth visited
    simp only [buildLoop]
    exact ih _ depth _

/-- The recursive tree builder changes only the children and reply count of
the node it is called on. -/
lemma buildRec_shape (db : List Email) (maxDepth : Nat) :
    ∀ (fuel : Nat) (parent : ConversationEmail) (depth : Nat) (visited : List String),
      (buildConversationTreeRecursive db maxDepth fuel parent depth visited).1.email
          = parent.email ∧
      (buildConversationTreeRecursive db maxDepth fuel parent depth visited).1.isRootEmail
          = parent.isRootEmail ∧
      (buildConversationTreeRecursive db maxDepth fuel parent depth visited).1.threadDepth
          = parent.threadDepth := by
  intro fuel
  cases fuel with
  | zero => intro parent depth visited; exact ⟨rfl, rfl, rfl⟩
  | succ n =>
    intro parent depth visited
    simp only [buildConversationTreeRecursive]
    split
    · exact ⟨rfl, rfl, rfl⟩
    · split
      · exact ⟨rfl, rfl, rfl⟩
      · split
        · exact ⟨rfl, rfl, rfl⟩
        · exact buildLoop_shape _ _ parent depth _

/-- The reply loop preserves well-formedness: when every step result is a
well-formed node sitting at level `depth`, appending the built children to a
well-formed parent one level above keeps the parent well-formed. -/
lemma buildLoop_good (step : Email → Nat → List String → ConversationEmail × List String)
    (depth : Nat)
    (hstep : ∀ r vis, GoodNode (step r depth vis).1 ∧ (step r depth vis).1.threadDepth = depth) :
    ∀ (replies : List Email) (parent : ConversationEmail) (visited : List String),
      GoodNode parent → depth = parent.threadDepth + 1 →
      GoodNode (buildLoop step replies parent depth visited).1 := by
  intro replies
  induction replies with
  | nil => intro parent visited hg _; exact hg
  | cons reply rest ih =>
    intro parent visited hg hd
    simp only [buildLoop]
    apply ih
    · cases hg with
      | mk n hrc hdep hch =>
        constructor
        · simp only [List.map_append, List.sum_append, List.map_cons, List.map_nil,
            List.sum_cons, List.sum_nil]
          omega
        · intro c hc
          rcases List.mem_append.mp hc with h1 | h2
          · exact hdep c h1
          · have : c = (step reply depth visited).1 := by simpa using h2
            rw [this, (hstep reply visited).2, hd]
        · intro c hc
          rcases List.mem_append.mp hc with h1 | h2
          · exact hch c h1
          · have : c = (step reply depth visited).1 := by simpa using h2
            rw [this]; exact (hstep reply visited).1
    · exact hd

/-- Every node the recursive builder returns is well-formed when its input
node is. -/
lemma buildRec_good (db : List Email) (maxDepth : Nat) :
    ∀ (fuel : Nat) (parent : ConversationEmail) (depth : Nat) (visited : List String),
      GoodNode parent → depth = parent.threadDepth + 1 →
      GoodNode (buildConversationTreeRecursive db maxDepth fuel parent depth visited).1 := by
  intro fuel
  induction fuel with
  | zero => intro parent depth visited hg _; exact hg
  | succ n ih =>
    intro parent depth visited hg hd
    simp only [buildConversationTreeRecursive]
    split
    · exact hg
    · split
      · exact hg
      · split
        · exact hg
        · apply buildLoop_good _ depth _ _ parent _ hg hd
          intro r vis
          constructor
          · apply ih ⟨r, [], 0, false, depth⟩ (depth + 1) vis
            · exact GoodNode.mk _ (by simp) (by simp) (by simp)
            · rfl
          · exact (buildRec_shape db maxDepth n ⟨r, [], 0, false, depth⟩ (depth + 1) vis).2.2

/-! ## Lemmas about the batch writer and existence pre-filter -/

/-- A failing email transaction reports every file of the flush failed and
leaves the store untouched. -/
lemma writeBatch_fail (s : Store) (batch : List ParsedEmailUnit) (hne : batch ≠ [])
    (hf : s.emailInsertFails = true) :
    writeBatch s batch = (s, ⟨0, batch.length, batch.map (fun p => p.filePath)⟩) := by
  have hm : batch.map (fun p => p.email) ≠ [] := by simpa using hne
  simp [writeBatch, InsertEmailsBatch, hne, hm, hf]

/-- A successful `InsertAttachmentsBatch` leaves the email rows unchanged. -/
lemma insertAttachments_emails (s : Store) (atts : List Attachment) :
    ∀ s2, InsertAttachmentsBatch s atts = .ok s2 → s2.emails = s.emails := by
  intro s2 h
  unfold InsertAttachmentsBatch at h
  split at h
  · injection h with h2; rw [← h2]
  · split at h
    · exact absurd h (by simp)
    · injection h with h2; rw [← h2]

/-- A flush whose email transaction succeeds persists every email of the
batch (whatever the attachment transaction does) and reports all of them
indexed and none failed. -/
lemma writeBatch_ok (s : Store) (batch : List ParsedEmailUnit) (hne : batch ≠ [])
    (hok : s.emailInsertFails = false) :
    (writeBatch s batch).1.emails = s.emails ++ batch.map (fun p => p.email) ∧
    (writeBatch s batch).2 = ⟨batch.length, 0, []⟩ := by
  have hm : batch.map (fun p => p.email) ≠ [] := by simpa using hne
  simp only [writeBatch, if_neg hne, InsertEmailsBatch, if_neg hm, hok, Bool.false_eq_true,
    if_false]
  refine ⟨?_, by simp⟩
  split
  · simp
  · split
    · simp
    · next s2 heq =>
        have h2 := insertAttachments_emails _ _ _ heq
        simp [h2]

/-- Unfolding the association-list lookup over a cons cell. -/
lemma lookupBool_cons (kv : String × Bool) (m : List (String × Bool)) (k : String) :
    lookupBool (kv :: m) k = if kv.1 = k then kv.2 else lookupBool m k := by
  by_cases h : kv.1 = k <;> simp [lookupBool, List.find?, h]

/-- A chunk answers the existence query for each of its members. -/
lemma lookupBool_chunk_mem (s : Store) :
    ∀ (chunk : List String) (rest : List (String × Bool)) (fp : String), fp ∈ chunk →
      lookupBool (checkExistenceChunk s chunk ++ rest) fp = EmailExists s fp := by
  intro chunk
  induction chunk with
  | nil => intro rest fp h; cases h
  | cons c cs ih =>
    intro rest fp h
    simp only [checkExistenceChunk, List.map_cons, List.cons_append, lookupBool_cons]
    by_cases hc : c = fp
    · simp [hc]
    · have : fp ∈ cs := by
        rcases List.mem_cons.mp h with h1 | h2
        · exact absurd h1.symm hc
        · exact h2
      simpa [hc] using ih rest fp this

/-- A chunk is transparent for paths outside it. -/
lemma lookupBool_chunk_skip (s : Store) :
    ∀ (chunk : List String) (rest : List (String × Bool)) (fp : String), fp ∉ chunk →
      lookupBool (checkExistenceChunk s chunk ++ rest) fp = lookupBool rest fp := by
  intro chunk
  induction chunk with
  | nil => intro rest fp _; simp [checkExistenceChunk]
  | cons c cs ih =>
    intro rest fp h
    have hc : ¬ c = fp := fun hcc => h (by simp [hcc])
    have hcs : fp ∉ cs := fun hm => h (List.mem_cons_of_mem _ hm)
    simp only [checkExistenceChunk, List.map_cons, List.cons_append, lookupBool_cons]
    simpa [hc] using ih rest fp hcs

/-- The chunked batch-existence check agrees with the per-path existence
query on every queried path. -/
lemma lookupBool_EmailsExistBatch (s : Store) :
    ∀ (n : Nat) (filePaths : List String), filePaths.length ≤ n →
      ∀ fp ∈ filePaths, lookupBool (EmailsExistBatch s filePaths) fp = EmailExists s fp := by
  intro n
  induction n with
  | zero =>
    intro filePaths hlen fp hfp
    have : filePaths = [] := List.eq_nil_of_length_eq_zero (Nat.le_zero.mp hlen)
    subst this; cases hfp
  | succ n ih =>
    intro filePaths hlen fp hfp
    have hne : filePaths ≠ [] := List.ne_nil_of_mem hfp
    rw [EmailsExistBatch, dif_neg hne]
    by_cases htake : fp ∈ filePaths.take 500
    · exact lookupBool_chunk_mem s _ _ fp htake
    · have hdrop : fp ∈ filePaths.drop 500 := by
        have := List.take_append_drop 500 filePaths
        rcases List.mem_append.mp (this ▸ hfp) with h1 | h2
        · exact absurd h1 htake
        · exact h2
      rw [lookupBool_chunk_skip s _ _ fp htake]
      apply ih (filePaths.drop 500) _ fp hdrop
      have hpos : 0 < filePaths.length := List.length_pos.mpr hne
      simp only [List.length_drop]
      omega

/-- Folding the pre-filter loop over files that all exist only increments
the skip counter. -/
lemma prefilter_foldl_all (existing : List (String × Bool)) :
    ∀ (files : List String) (k : Nat),
      (∀ f ∈ files, lookupBool existing f = true) →
      files.foldl
        (fun acc file =>
          if lookupBool existing file then (acc.1 + 1, acc.2) else (acc.1, acc.2 ++ [file]))
        (k, []) = (k + files.length, []) := by
  intro files
  induction files with
  | nil => intro k _; simp
  | cons f fs ih =>
    intro k h
    have hf : lookupBool existing f = true := h f (by simp)
    simp only [List.foldl_cons, hf, if_true]
    rw [ih (k + 1) (fun g hg => h g (by simp [hg]))]
    simp only [List.length_cons]
    congr 1
    omega

/-- When every candidate already exists, the pre-filter skips everything and
forwards no file. -/
lemma prefilter_all_existing (existing : List (String × Bool)) (files : List String)
    (h : ∀ f ∈ files, lookupBool existing f = true) :
    prefilter existing files = (files.length, []) := by
  unfold prefilter
  simpa using prefilter_foldl_all existing files 0 h

/-! ## Claim theorems -/

/-- C1: the spec (and the repository's own test
`TestCircularReferenceDetection` and fix notes) requires `findConversationRoot`
to terminate on two mutually referencing records and return a
`CircularReference` error; the shipped loop has no visited set or hop bound,
and on the two-record cycle it never returns: for every iteration budget the
walk is still running, from either record. -/
theorem claim_C1_divergence :
    ∀ fuel : Nat,
      findConversationRoot cycleDb fuel email1 = none ∧
      findConversationRoot cycleDb fuel email2 = none := by
  intro fuel
  induction fuel with
  | zero => exact ⟨rfl, rfl⟩
  | succ n ih =>
    constructor
    · rw [show findConversationRoot cycleDb (n + 1) email1 = findConversationRoot cycleDb n email2
          by simp [findConversationRoot, GetEmailsByMessageID, cycleDb, email1, email2,
            List.find?]]
      exact ih.2
    · rw [show findConversationRoot cycleDb (n + 1) email2 = findConversationRoot cycleDb n email1
          by simp [findConversationRoot, GetEmailsByMessageID, cycleDb, email1, email2,
            List.find?]]
      exact ih.1

set_option maxRecDepth 10000 in
/-- C4: on the 150-record chain the claim (and the repository's fix notes)
expects the walk to stop within a hop bound of 100 and return the record
reached at the bound; the shipped loop has no hop bound: it has not finished
after 100 iterations and only returns after walking all 149 back-references,
yielding the true first record of the chain. -/
theorem claim_C4_no_hop_bound :
    findConversationRoot chainDb 150 (chainEmail 149) = some (chainEmail 0) ∧
    findConversationRoot chainDb 100 (chainEmail 149) = none := by
  constructor <;> decide

/-- C2 counterexample: a flush is not one atomic transaction over emails and
attachments: with a store whose attachment transaction fails, the email of
the single-unit batch is persisted, its attachment is not, and the flush
reports one record indexed and none failed — partial success within one
flush. -/
theorem claim_C2_counterexample :
    (writeBatch attFailStore [oneAttUnit]).1.emails.length = 1 ∧
    (writeBatch attFailStore [oneAttUnit]).1.attachments = [] ∧
    (writeBatch attFailStore [oneAttUnit]).2.failed = 0 ∧
    (writeBatch attFailStore [oneAttUnit]).2.indexed = 1 := by
  refine ⟨by decide, by decide, by decide, by decide⟩

/-- C2 amended: a flush performs two separate transactions. The email
batch-insert is atomic: if it fails, every record of the flush is reported
failed and nothing is persisted; if it succeeds, every email of the flush is
persisted and reported indexed. The attachment batch-insert is a second
transaction whose failure is only logged: the emails stay persisted, no
record is reported failed, and the attachments are not persisted. -/
theorem claim_C2_amended : ∀ (s : Store) (batch : List ParsedEmailUnit), batch ≠ [] →
    (s.emailInsertFails = true →
      writeBatch s batch = (s, ⟨0, batch.length, batch.map (fun p => p.filePath)⟩)) ∧
    (s.emailInsertFails = false →
      (writeBatch s batch).1.emails = s.emails ++ batch.map (fun p => p.email) ∧
      (writeBatch s batch).2.indexed = batch.length ∧
      (writeBatch s batch).2.failed = 0 ∧
      (writeBatch s batch).2.failedFiles = []) ∧
    (s.emailInsertFails = false → s.attachmentInsertFails = true →
      (writeBatch s batch).1.attachments = s.attachments) := by
  intro s batch hne
  refine ⟨fun hf => writeBatch_fail s batch hne hf, fun hok => ?_, fun hok hatt => ?_⟩
  · have h := writeBatch_ok s batch hne hok
    exact ⟨h.1, by rw [h.2], by rw [h.2], by rw [h.2]⟩
  · have hm : batch.map (fun p => p.email) ≠ [] := by simpa using hne
    simp only [writeBatch, if_neg hne, InsertEmailsBatch, if_neg hm, hok, Bool.false_eq_true,
      if_false]
    split
    · simp
    · next hatts =>
        split
        · simp
        · next s2 heq =>
            exfalso
            unfold InsertAttachmentsBatch at heq
            rw [if_neg hatts] at heq
            simp [hatt] at heq

/-- C2 amended witness: the amended flush contract evaluated on the
concrete one-unit batch against the attachment-failing store. -/
theorem claim_C2_amended_witness :
    (writeBatch attFailStore [oneAttUnit]).1.emails =
      attFailStore.emails ++ [oneAttUnit].map (fun p => p.email) ∧
    (writeBatch attFailStore [oneAttUnit]).2.indexed = 1 ∧
    (writeBatch attFailStore [oneAttUnit]).1.attachments = attFailStore.attachments := by
  have h := claim_C2_amended attFailStore [oneAttUnit] (by decide)
  exact ⟨(h.2.1 rfl).1, (h.2.1 rfl).2.1, h.2.2 rfl rfl⟩

/-- C3 counterexample: the pipeline's stat/parse path is not obtained through
the traversal-safe resolver: for the stored relative path `../../etc/passwd`
the worker's direct join escapes the configured root (it is neither the root
nor under it), while `ResolveEmailPath` rejects that same path. -/
theorem claim_C3_counterexample :
    parseWorkerAbsolutePath "/home/user/emails" "../../etc/passwd" = "/home/etc/passwd" ∧
    strHasPrefix (parseWorkerAbsolutePath "/home/user/emails" "../../etc/passwd")
      ("/home/user/emails" ++ "/") = false ∧
    parseWorkerAbsolutePath "/home/user/emails" "../../etc/passwd" ≠ "/home/user/emails" ∧
    ResolveEmailPath "/home/user/emails" "../../etc/passwd" = .error .pathTraversal := by
  refine ⟨by decide, by decide, by decide, by decide⟩

/-- C3 amended: the indexing pipeline computes the absolute path by joining
the scanner root with the stored relative path directly, without the
resolver; a corrupted or adversarial stored relative path therefore can
resolve outside the configured root (paths the resolver would reject), while
benign stored paths resolve to the same location under both. -/
theorem claim_C3_amended :
    (parseWorkerAbsolutePath "/home/user/emails" "../../etc/passwd" = "/home/etc/passwd" ∧
     ResolveEmailPath "/home/user/emails" "../../etc/passwd" = .error .pathTraversal) ∧
    (strHasPrefix (parseWorkerAbsolutePath "/home/user/emails" "inbox/../../../tmp/x")
       ("/home/user/emails" ++ "/") = false ∧
     ResolveEmailPath "/home/user/emails" "inbox/../../../tmp/x" = .error .pathTraversal) ∧
    (parseWorkerAbsolutePath "/home/user/emails" "inbox/a.eml" =
       "/home/user/emails/inbox/a.eml" ∧
     ResolveEmailPath "/home/user/emails" "inbox/a.eml" =
       .ok "/home/user/emails/inbox/a.eml") := by
  refine ⟨⟨by decide, by decide⟩, ⟨by decide, by decide⟩, ⟨by decide, by decide⟩⟩

/-- C5: the resolver rejects `../../etc/passwd`, the absolute
`/etc/passwd`, and `inbox/../../x` with the single typed traversal error,
and resolves `inbox/.hidden` to a path strictly under the configured
root. -/
theorem claim_C5 :
    ResolveEmailPath "/home/user/emails" "../../etc/passwd" = .error .pathTraversal ∧
    ResolveEmailPath "/home/user/emails" "/etc/passwd" = .error .pathTraversal ∧
    ResolveEmailPath "/home/user/emails" "inbox/../../x" = .error .pathTraversal ∧
    ResolveEmailPath "/home/user/emails" "inbox/.hidden" = .ok "/home/user/emails/inbox/.hidden" ∧
    strHasPrefix "/home/user/emails/inbox/.hidden" ("/home/user/emails" ++ "/") = true := by
  refine ⟨by decide, by decide, by decide, by decide, by decide⟩

/-- C10: the resolver rejects every relative path whose cleaned form
contains the two-character substring `..` anywhere; in particular
`inbox/report..v2.eml` — whose cleaned form has no parent-directory segment
and whose direct join lies strictly inside the root — is rejected even
though no traversal occurs. -/
theorem claim_C10 :
    (∀ (emailsPath relativePath : String), goIsAbs relativePath = false →
        strContains (filepathClean relativePath) ".." = true →
        ResolveEmailPath emailsPath relativePath = .error .pathTraversal) ∧
    ResolveEmailPath "/home/user/emails" "inbox/report..v2.eml" = .error .pathTraversal ∧
    filepathClean "inbox/report..v2.eml" = "inbox/report..v2.eml" ∧
    ((splitSlash "inbox/report..v2.eml").contains ".." = false) ∧
    filepathJoin "/home/user/emails" "inbox/report..v2.eml" =
      "/home/user/emails/inbox/report..v2.eml" ∧
    strHasPrefix (filepathJoin "/home/user/emails" "inbox/report..v2.eml")
      ("/home/user/emails" ++ "/") = true := by
  refine ⟨?_, by decide, by decide, by decide, by decide, by decide⟩
  intro emailsPath relativePath h1 h2
  simp only [ResolveEmailPath, h1, h2]
  rfl

/-- C10 witness: the general rejection rule applied to the concrete in-root
file name containing consecutive dots. -/
theorem claim_C10_witness :
    goIsAbs "inbox/report..v2.eml" = false ∧
    strContains (filepathClean "inbox/report..v2.eml") ".." = true ∧
    ResolveEmailPath "/home/user/emails" "inbox/report..v2.eml" = .error .pathTraversal :=
  ⟨by decide, by decide,
    claim_C10.1 "/home/user/emails" "inbox/report..v2.eml" (by decide) (by decide)⟩

/-- C6 counterexample: under the two-record cyclic store, the record with
identifier `msg1` occupies two positions of the tree built from it (the
root and an unexpanded grandchild leaf), so it is not true that every record
appears in at most one position of the built tree. -/
theorem claim_C6_counterexample :
    ¬ (countOcc "<msg1@example.com>" (BuildConversationTree cycleDb email1) ≤ 1) := by
  decide

/-- C6 amended: for the three-email thread, `buildTree(email1)` yields
exactly one child (`email2`) with exactly one child (`email3`, a leaf), and
`countReplies(email1.messageId) = 2`; under malformed cyclic reference data
only re-expansion of a visited identifier is prevented — in the two-record
cycle the root record reappears at a second position, but only as an
unexpanded leaf (no children, reply count 0). -/
theorem claim_C6_amended :
    ((BuildConversationTree treeDb tEmail1).children.map (fun c => c.email.messageId)
        = ["<m2@x>"]) ∧
    (((BuildConversationTree treeDb tEmail1).children.headD default).children.map
        (fun c => c.email.messageId) = ["<m3@x>"]) ∧
    ((((BuildConversationTree treeDb tEmail1).children.headD default).children.headD
        default).children.length = 0) ∧
    CountReplies treeDb "<m1@x>" = 2 ∧
    countOcc "<msg1@example.com>" (BuildConversationTree cycleDb email1) = 2 ∧
    ((((BuildConversationTree cycleDb email1).children.headD default).children.headD
        default).children.length = 0) ∧
    ((((BuildConversationTree cycleDb email1).children.headD default).children.headD
        default).replyCount = 0) ∧
    ((((BuildConversationTree cycleDb email1).children.headD default).children.headD
        default).email.messageId = "<msg1@example.com>") := by
  refine ⟨by decide, by decide, by decide, by decide, by decide, by decide, by decide, by decide⟩

/-- C7 counterexample: the built tree does not satisfy
`replyCount = 1 + sum(children.replyCount)`: the tree built for a single
record with no replies has reply count 0, not 1. -/
theorem claim_C7_counterexample :
    ¬ ((BuildConversationTree soloDb tEmail1).replyCount =
        1 + ((BuildConversationTree soloDb tEmail1).children.map
              (fun c => c.replyCount)).sum) := by
  decide

/-- C7 amended: in every tree produced by `BuildConversationTree`, each
node's reply count equals the sum over its children of
`1 + child.replyCount` (the number of proper descendants in the tree), each
child's depth is its parent's depth plus one, and the root has depth 0 and
carries the root flag. -/
theorem claim_C7_amended : ∀ (db : List Email) (rootEmail : Email),
    GoodNode (BuildConversationTree db rootEmail) ∧
    (BuildConversationTree db rootEmail).threadDepth = 0 ∧
    (BuildConversationTree db rootEmail).isRootEmail = true := by
  intro db rootEmail
  refine ⟨?_, ?_, ?_⟩
  · exact buildRec_good db 50 51 ⟨rootEmail, [], 0, true, 0⟩ 1 []
      (GoodNode.mk _ (by simp) (by simp) (by simp)) rfl
  · exact (buildRec_shape db 50 51 ⟨rootEmail, [], 0, true, 0⟩ 1 []).2.2
  · exact (buildRec_shape db 50 51 ⟨rootEmail, [], 0, true, 0⟩ 1 []).2.1

/-- C8: when every scanned path already has a persisted record (as after a
fully successful first run over an unchanged directory), the pre-filter
forwards no file — nothing reaches the worker pool — and the run returns
with `newIndexed = 0`, `skipped = totalFound`, and the store untouched (no
insert path is reached). -/
theorem claim_C8 : ∀ (s : Store) (rootPath : String) (parse : String → Option ParsedEML)
    (stat : String → Option Nat) (files : List String),
    (∀ f ∈ files, EmailExists s f = true) →
    (prefilter (EmailsExistBatch s files) files).2 = [] ∧
    indexAllConcurrent s rootPath parse stat files =
      (s, ⟨files.length, 0, files.length, 0, []⟩) := by
  intro s rootPath parse stat files hall
  have hlk : ∀ f ∈ files, lookupBool (EmailsExistBatch s files) f = true := by
    intro f hf
    rw [lookupBool_EmailsExistBatch s files.length files (Nat.le_refl _) f hf]
    exact hall f hf
  have hpf := prefilter_all_existing (EmailsExistBatch s files) files hlk
  refine ⟨by rw [hpf], ?_⟩
  simp only [indexAllConcurrent, hpf, if_true]

/-- C8 witness: the idempotent re-run evaluated on a store already holding
the single scanned path. -/
theorem claim_C8_witness :
    (∀ f ∈ ["inbox/a.eml"], EmailExists { emails := [{ filePath := "inbox/a.eml" }] } f = true) ∧
    indexAllConcurrent { emails := [{ filePath := "inbox/a.eml" }] } "/root" (fun _ => none)
        (fun _ => none) ["inbox/a.eml"] =
      ({ emails := [{ filePath := "inbox/a.eml" }] }, ⟨1, 0, 1, 0, []⟩) := by
  refine ⟨by decide, ?_⟩
  exact (claim_C8 { emails := [{ filePath := "inbox/a.eml" }] } "/root" (fun _ => none)
    (fun _ => none) ["inbox/a.eml"] (by decide)).2

/-- C9: for a two-file input set with one well-formed file (parse and stat
succeed) and one unparseable file, neither already indexed and the email
transaction healthy, the run completes — in either input order — with
`totalFound = 2`, `newIndexed = 1`, `failed = 1`, the failing path as the
only entry of `failedFiles`, and the well-formed file's record persisted and
queryable; the per-file failure neither aborts the run nor affects the other
file. -/
theorem claim_C9 : ∀ (s : Store) (rootPath : String) (parse : String → Option ParsedEML)
    (stat : String → Option Nat) (g b : String) (pe : ParsedEML) (sz : Nat),
    s.emailInsertFails = false →
    parse (parseWorkerAbsolutePath rootPath g) = some pe →
    stat (parseWorkerAbsolutePath rootPath g) = some sz →
    parse (parseWorkerAbsolutePath rootPath b) = none →
    EmailExists s g = false →
    EmailExists s b = false →
    ∀ files, (files = [g, b] ∨ files = [b, g]) →
      (indexAllConcurrent s rootPath parse stat files).2.totalFound = 2 ∧
      (indexAllConcurrent s rootPath parse stat files).2.newIndexed = 1 ∧
      (indexAllConcurrent s rootPath parse stat files).2.skipped = 0 ∧
      (indexAllConcurrent s rootPath parse stat files).2.failed = 1 ∧
      (indexAllConcurrent s rootPath parse stat files).2.failedFiles = [b] ∧
      EmailExists (indexAllConcurrent s rootPath parse stat files).1 g = true := by
  intro s rootPath parse stat g b pe sz hok hpg hsg hpb hg hb files hfiles
  have hpwg : parseWorker rootPath parse stat g =
      some ⟨{ filePath := g, messageId := pe.messageId, inReplyTo := pe.inReplyTo,
              date := pe.date,
              bodyTextPreview :=
                if pe.bodyText.length > 10240 then strTake pe.bodyText 10240
                else pe.bodyText },
            pe.attachments, g⟩ := by
    simp [parseWorker, hpg, hsg]
  obtain ⟨u, hu, hufile⟩ :
      ∃ u : ParsedEmailUnit, parseWorker rootPath parse stat g = some u ∧
        u.email.filePath = g := ⟨_, hpwg, rfl⟩
  have hpwb : parseWorker rootPath parse stat b = none := by
    simp [parseWorker, hpb]
  have hbw : ∀ v : ParsedEmailUnit,
      batchWriter s [v] = ((writeBatch s [v]).1, [(writeBatch s [v]).2]) := by
    intro v
    simp [batchWriter]
  have hw := writeBatch_ok s [u] (by simp) hok
  have hex : EmailExists (writeBatch s [u]).1 g = true := by
    rw [EmailExists, hw.1]
    simp [hufile]
  rcases hfiles with rfl | rfl
  · have hlg : lookupBool (EmailsExistBatch s [g, b]) g = false := by
      rw [lookupBool_EmailsExistBatch s 2 [g, b] (by simp) g (by simp)]; exact hg
    have hlb : lookupBool (EmailsExistBatch s [g, b]) b = false := by
      rw [lookupBool_EmailsExistBatch s 2 [g, b] (by simp) b (by simp)]; exact hb
    have hpf : prefilter (EmailsExistBatch s [g, b]) [g, b] = (0, [g, b]) := by
      simp [prefilter, hlg, hlb]
    unfold indexAllConcurrent
    simp only [hpf]
    simp only [List.map_cons, List.map_nil, hu, hpwb, List.filterMap_cons, List.filterMap_nil,
      List.filter_cons, List.filter_nil]
    simp [hbw, hw.2, hex]
  · have hlg : lookupBool (EmailsExistBatch s [b, g]) g = false := by
      rw [lookupBool_EmailsExistBatch s 2 [b, g] (by simp) g (by simp)]; exact hg
    have hlb : lookupBool (EmailsExistBatch s [b, g]) b = false := by
      rw [lookupBool_EmailsExistBatch s 2 [b, g] (by simp) b (by simp)]; exact hb
    have hpf : prefilter (EmailsExistBatch s [b, g]) [b, g] = (0, [b, g]) := by
      simp [prefilter, hlg, hlb]
    unfold indexAllConcurrent
    simp only [hpf]
    simp only [List.map_cons, List.map_nil, hu, hpwb, List.filterMap_cons, List.filterMap_nil,
      List.filter_cons, List.filter_nil]
    simp [hbw, hw.2, hex]

/-- Concrete parse oracle for the C9 witness: one parseable file. -/
def c9parse : String → Option ParsedEML :=
  fun p => if p = "/r/good.eml" then some { messageId := "<g@x>" } else none

/-- Concrete stat oracle for the C9 witness. -/
def c9stat : String → Option Nat :=
  fun p => if p = "/r/good.eml" then some 17 else none

/-- C9 witness: the failure-isolation contract evaluated on an empty store,
one well-formed file and one unparseable file. -/
theorem claim_C9_witness :
    (indexAllConcurrent {} "/r" c9parse c9stat ["good.eml", "bad.eml"]).2.newIndexed = 1 ∧
    (indexAllConcurrent {} "/r" c9parse c9stat ["good.eml", "bad.eml"]).2.failed = 1 ∧
    (indexAllConcurrent {} "/r" c9parse c9stat
        ["good.eml", "bad.eml"]).2.failedFiles = ["bad.eml"] ∧
    EmailExists (indexAllConcurrent {} "/r" c9parse c9stat
        ["good.eml", "bad.eml"]).1 "good.eml" = true := by
  have h := claim_C9 {} "/r" c9parse c9stat "good.eml" "bad.eml" { messageId := "<g@x>" } 17
    rfl (by decide) (by decide) (by decide) (by decide) (by decide)
    ["good.eml", "bad.eml"] (Or.inl rfl)
  exact ⟨h.2.1, h.2.2.2.1, h.2.2.2.2.1, h.2.2.2.2.2⟩
